/-
Verification of the jsketch repository against its specification.

Shallow embedding of the two source files:
  - jsketch.js                  : the jSketch chainable canvas wrapper
  - src/sketchable.memento.js   : the MementoCanvas undo/redo plugin

Modelling conventions:
  - Mutation of `this` becomes explicit state passing (each jSketch method is a
    function JSketch -> JSketch, returning the receiver, mirroring `return this`).
  - Native 2D-context side effects (property writes and method calls on
    `this.context`) are recorded in a trace field `ctxLog`, since the claims only
    require knowing which native operations were issued and in which order.
  - JavaScript numbers are modelled as Int (claims are not about numeric values);
    the literal `2*Math.PI` used by the circle methods is a distinguished Val
    constructor, and `false` is a boolean Val.
  - A JS object used as a dictionary (`this.data`, the options objects) is an
    association list with insertion order, matching for-in enumeration order.
  - Code that throws returns Except; `x.y` on an undefined `x` is a typeError.
-/
import Mathlib

set_option linter.unusedVariables false

/-- A canvas DOM element, reduced to the fields the source reads or writes
(`elem.width`, `elem.height`). The 2D context obtained from it is modelled by
the `ctxLog` trace of the owning JSketch. -/
structure Canvas where
  width : Int
  height : Int
deriving DecidableEq, Repr

/-- JavaScript values appearing as drawing-call arguments or style options in
the source: numbers, strings, booleans, the literal `2*Math.PI` pushed by the
circle methods, and Image objects (identified by their src) pushed by
drawImage. -/
inductive Val
| num (n : Int)
| str (s : String)
| bool (b : Bool)
| twoPi
| image (src : String)
deriving DecidableEq, Repr

/-- JavaScript truthiness for the Val fragment (used by `||` defaulting in
setDefaults and by the `val &&` guard in saveGraphics). -/
def Val.truthy : Val → Bool
| .num n => n ≠ 0
| .str s => s ≠ ""
| .bool b => b
| .twoPi => true
| .image _ => true

/-- The JS expression `v || d`: the left operand when truthy, else the default. -/
def jsOr (v : Option Val) (d : Val) : Val :=
  match v with
  | some w => if w.truthy then w else d
  | none => d

/-- One entry of the abstract call stack: the source pushes either
`{ method: name, args: [...] }` (args omitted for some methods) or
`{ property: name, value: v }`. -/
inductive CallEntry
| method (name : String) (args : Option (List Val))
| property (name : String) (value : Val)
deriving DecidableEq, Repr

/-- One native canvas-context side effect: a property assignment
`this.context[name] = v` or a method call `this.context.name(args)`. -/
inductive CtxEffect
| setProp (name : String) (value : Val)
| call (name : String) (args : List Val)
deriving DecidableEq, Repr

/-- A thrown JavaScript exception: an explicit `throw new Error(msg)` or the
TypeError produced by dereferencing undefined. -/
inductive JsErr
| thrown (msg : String)
| typeError (msg : String)
deriving DecidableEq, Repr

/-- Dictionary read `d[k]`: undefined (none) when the key is absent. -/
def alGet (d : List (String × Val)) (k : String) : Option Val :=
  (d.find? (fun kv => decide (kv.1 = k))).map (fun kv => kv.2)

/-- Dictionary write `d[k] = v`: overwrite in place, or append a new key
(JS objects keep insertion order). -/
def alSet (d : List (String × Val)) (k : String) (v : Val) : List (String × Val) :=
  if d.any (fun kv => decide (kv.1 = k)) then
    d.map (fun kv => if kv.1 = k then (k, v) else kv)
  else d ++ [(k, v)]

/-- The mutable state of a jSketch instance: the canvas shortcut, the native
context trace, the stage dimensions, the `data` options dictionary, and the
abstract `callStack` replay log. -/
structure JSketch where
  canvas : Canvas
  ctxLog : List CtxEffect
  stageWidth : Int
  stageHeight : Int
  data : List (String × Val)
  callStack : List CallEntry
deriving DecidableEq, Repr

/-- jSketch.setContext: throws on a falsy element, otherwise records the new
canvas (and its 2D context) and returns this. -/
def JSketch.setContext (s : JSketch) (elem : Option Canvas) : Except JsErr JSketch :=
  match elem with
  | none => .error (.thrown "No canvas element specified.")
  | some c => .ok { s with canvas := c }

/-- jSketch.restoreGraphics: `this.context[opt] = this.data[opt]` for every
option in data, in insertion order; returns this. -/
def JSketch.restoreGraphics (s : JSketch) : JSketch :=
  { s with ctxLog := s.ctxLog ++ s.data.map (fun kv => CtxEffect.setProp kv.1 kv.2) }

/-- jSketch.saveGraphics(options): for each option in order, when its value is
truthy and differs (strictly) from the stored one, store it in data and push a
property entry on the callStack; returns this. A missing options argument is
the empty list (for-in over undefined iterates zero times). -/
def JSketch.saveGraphics (s : JSketch) : List (String × Option Val) → JSketch
| [] => s
| (opt, val) :: rest =>
  match val with
  | some v =>
    if v.truthy ∧ some v ≠ alGet s.data opt then
      JSketch.saveGraphics
        { s with data := alSet s.data opt v,
                 callStack := s.callStack ++ [CallEntry.property opt v] } rest
    else JSketch.saveGraphics s rest
  | none => JSketch.saveGraphics s rest

/-- jSketch.setDefaults: build the defaulted options object, push every option
as a property entry, then saveGraphics(options).restoreGraphics(). -/
def JSketch.setDefaults (s : JSketch) : JSketch :=
  let options : List (String × Val) := [
    ("fillStyle",   jsOr (alGet s.data "fillStyle")   (.str "#F00")),
    ("strokeStyle", jsOr (alGet s.data "strokeStyle") (.str "#F0F")),
    ("lineWidth",   jsOr (alGet s.data "lineWidth")   (.num 2)),
    ("lineCap",     jsOr (alGet s.data "lineCap")     (.str "round")),
    ("lineJoin",    jsOr (alGet s.data "lineJoin")    (.str "round")),
    ("miterLimit",  jsOr (alGet s.data "miterLimit")  (.num 10))]
  let s1 := { s with callStack :=
    s.callStack ++ options.map (fun kv => CallEntry.property kv.1 kv.2) }
  (JSketch.saveGraphics s1 (options.map (fun kv => (kv.1, some kv.2)))).restoreGraphics

/-- jSketch.size: update stage dimensions and the canvas element's dimensions,
then restoreGraphics; returns this. -/
def JSketch.size (s : JSketch) (width height : Int) : JSketch :=
  ({ s with stageWidth := width, stageHeight := height,
            canvas := { width := width, height := height } }).restoreGraphics

/-- jSketch.beginFill: saveGraphics() with no options, set context.fillStyle,
push a property entry; returns this. -/
def JSketch.beginFill (s : JSketch) (color : Val) : JSketch :=
  let s1 := JSketch.saveGraphics s []
  { s1 with ctxLog := s1.ctxLog ++ [CtxEffect.setProp "fillStyle" color],
            callStack := s1.callStack ++ [CallEntry.property "fillStyle" color] }

/-- jSketch.endFill: restoreGraphics(); returns this. -/
def JSketch.endFill (s : JSketch) : JSketch :=
  s.restoreGraphics

/-- jSketch.background: beginFill(color), native fillRect over the stage,
endFill, then push the property and method entries; returns this. -/
def JSketch.background (s : JSketch) (color : Val) : JSketch :=
  let args : List Val := [.num 0, .num 0, .num s.stageWidth, .num s.stageHeight]
  let s1 := s.beginFill color
  let s2 := { s1 with ctxLog := s1.ctxLog ++ [CtxEffect.call "fillRect" args] }
  let s3 := s2.endFill
  { s3 with callStack := s3.callStack ++
      [CallEntry.property "fillStyle" color, CallEntry.method "fillRect" (some args)] }

/-- jSketch.stage: size(width, height).background(bgcolor); returns this. -/
def JSketch.stage (s : JSketch) (width height : Int) (bgcolor : Val) : JSketch :=
  (s.size width height).background bgcolor

/-- jSketch.lineStyle: saveGraphics over the five stroke options (arguments may
be undefined), then restoreGraphics; returns this. -/
def JSketch.lineStyle (s : JSketch)
    (color thickness capStyle joinStyle miter : Option Val) : JSketch :=
  (JSketch.saveGraphics s [
    ("strokeStyle", color), ("lineWidth", thickness), ("lineCap", capStyle),
    ("lineJoin", joinStyle), ("miterLimit", miter)]).restoreGraphics

/-- jSketch.moveTo: native moveTo, push the method entry; returns this. -/
def JSketch.moveTo (s : JSketch) (x y : Int) : JSketch :=
  let args : List Val := [.num x, .num y]
  { s with ctxLog := s.ctxLog ++ [CtxEffect.call "moveTo" args],
           callStack := s.callStack ++ [CallEntry.method "moveTo" (some args)] }

/-- jSketch.lineTo: native lineTo, push the method entry; returns this. -/
def JSketch.lineTo (s : JSketch) (x y : Int) : JSketch :=
  let args : List Val := [.num x, .num y]
  { s with ctxLog := s.ctxLog ++ [CtxEffect.call "lineTo" args],
           callStack := s.callStack ++ [CallEntry.method "lineTo" (some args)] }

/-- jSketch.line: moveTo(x1,y1) then lineTo(x2,y2); returns this. -/
def JSketch.line (s : JSketch) (x1 y1 x2 y2 : Int) : JSketch :=
  (s.moveTo x1 y1).lineTo x2 y2

/-- jSketch.curveTo: the native call uses a different argument order
(cpx, cpy, x, y); push the quadraticCurveTo entry; returns this. -/
def JSketch.curveTo (s : JSketch) (x y cpx cpy : Int) : JSketch :=
  let args : List Val := [.num cpx, .num cpy, .num x, .num y]
  { s with ctxLog := s.ctxLog ++ [CtxEffect.call "quadraticCurveTo" args],
           callStack := s.callStack ++ [CallEntry.method "quadraticCurveTo" (some args)] }

/-- jSketch.curve: moveTo(x1,y1) then curveTo(x2,y2,cpx,cpy); returns this. -/
def JSketch.curve (s : JSketch) (x1 y1 x2 y2 cpx cpy : Int) : JSketch :=
  (s.moveTo x1 y1).curveTo x2 y2 cpx cpy

/-- jSketch.stroke: native stroke, push the entry (no args field); returns this. -/
def JSketch.stroke (s : JSketch) : JSketch :=
  { s with ctxLog := s.ctxLog ++ [CtxEffect.call "stroke" []],
           callStack := s.callStack ++ [CallEntry.method "stroke" none] }

/-- jSketch.strokeRect: native beginPath, strokeRect, closePath; push the
method entry; returns this. -/
def JSketch.strokeRect (s : JSketch) (x y width height : Int) : JSketch :=
  let args : List Val := [.num x, .num y, .num width, .num height]
  { s with ctxLog := s.ctxLog ++
      [CtxEffect.call "beginPath" [], CtxEffect.call "strokeRect" args,
       CtxEffect.call "closePath" []],
           callStack := s.callStack ++ [CallEntry.method "strokeRect" (some args)] }

/-- jSketch.fillRect: native beginPath, fillRect, closePath; push the method
entry; returns this. -/
def JSketch.fillRect (s : JSketch) (x y width height : Int) : JSketch :=
  let args : List Val := [.num x, .num y, .num width, .num height]
  { s with ctxLog := s.ctxLog ++
      [CtxEffect.call "beginPath" [], CtxEffect.call "fillRect" args,
       CtxEffect.call "closePath" []],
           callStack := s.callStack ++ [CallEntry.method "fillRect" (some args)] }

/-- jSketch.rect: fillRect then strokeRect with the same args; returns this. -/
def JSketch.rect (s : JSketch) (x y width height : Int) : JSketch :=
  (s.fillRect x y width height).strokeRect x y width height

/-- jSketch.strokeCircle: args are [x, y, radius, 0, 2*Math.PI, false]; native
beginPath, arc, stroke, closePath; push the strokeCircle entry; returns this. -/
def JSketch.strokeCircle (s : JSketch) (x y radius : Int) : JSketch :=
  let args : List Val := [.num x, .num y, .num radius, .num 0, .twoPi, .bool false]
  { s with ctxLog := s.ctxLog ++
      [CtxEffect.call "beginPath" [], CtxEffect.call "arc" args,
       CtxEffect.call "stroke" [], CtxEffect.call "closePath" []],
           callStack := s.callStack ++ [CallEntry.method "strokeCircle" (some args)] }

/-- jSketch.fillCircle: args are [x, y, radius, 0, 2*Math.PI, false]; native
beginPath, arc, fill, closePath; push the fillCircle entry; returns this. -/
def JSketch.fillCircle (s : JSketch) (x y radius : Int) : JSketch :=
  let args : List Val := [.num x, .num y, .num radius, .num 0, .twoPi, .bool false]
  { s with ctxLog := s.ctxLog ++
      [CtxEffect.call "beginPath" [], CtxEffect.call "arc" args,
       CtxEffect.call "fill" [], CtxEffect.call "closePath" []],
           callStack := s.callStack ++ [CallEntry.method "fillCircle" (some args)] }

/-- jSketch.circle: fillCircle then strokeCircle with the same args; returns this. -/
def JSketch.circle (s : JSketch) (x y radius : Int) : JSketch :=
  (s.fillCircle x y radius).strokeCircle x y radius

/-- jSketch.beginPath: saveGraphics() with no options, native beginPath, push
the entry (no args field); returns this. -/
def JSketch.beginPath (s : JSketch) : JSketch :=
  let s1 := JSketch.saveGraphics s []
  { s1 with ctxLog := s1.ctxLog ++ [CtxEffect.call "beginPath" []],
            callStack := s1.callStack ++ [CallEntry.method "beginPath" none] }

/-- jSketch.closePath: native closePath, push the entry, then
restoreGraphics(); returns this. -/
def JSketch.closePath (s : JSketch) : JSketch :=
  ({ s with ctxLog := s.ctxLog ++ [CtxEffect.call "closePath" []],
            callStack := s.callStack ++ [CallEntry.method "closePath" none] }).restoreGraphics

/-- jSketch.eraser: set globalCompositeOperation to destination-out, push the
comp-op property entry; returns this. -/
def JSketch.eraser (s : JSketch) : JSketch :=
  { s with ctxLog := s.ctxLog ++
      [CtxEffect.setProp "globalCompositeOperation" (.str "destination-out")],
           callStack := s.callStack ++ [CallEntry.property "comp-op" (.str "dst_out")] }

/-- jSketch.pencil: set globalCompositeOperation to source-over, push the
comp-op property entry; returns this. -/
def JSketch.pencil (s : JSketch) : JSketch :=
  { s with ctxLog := s.ctxLog ++
      [CtxEffect.setProp "globalCompositeOperation" (.str "source-over")],
           callStack := s.callStack ++ [CallEntry.property "comp-op" (.str "src_over")] }

/-- jSketch.clear: native clearRect over the stage, push the clear entry (no
args field); returns this. -/
def JSketch.clear (s : JSketch) : JSketch :=
  { s with ctxLog := s.ctxLog ++
      [CtxEffect.call "clearRect" [.num 0, .num 0, .num s.stageWidth, .num s.stageHeight]],
           callStack := s.callStack ++ [CallEntry.method "clear" none] }

/-- jSketch.save: native context.save(), push the entry; returns this. -/
def JSketch.save (s : JSketch) : JSketch :=
  { s with ctxLog := s.ctxLog ++ [CtxEffect.call "save" []],
           callStack := s.callStack ++ [CallEntry.method "save" none] }

/-- jSketch.restore: native context.restore(), push the entry; returns this. -/
def JSketch.restore (s : JSketch) : JSketch :=
  { s with ctxLog := s.ctxLog ++ [CtxEffect.call "restore" []],
           callStack := s.callStack ++ [CallEntry.method "restore" none] }

/-- jSketch.drawImage, synchronous part: default the coordinates, create the
Image and start loading; push the addAsync marker; returns this. The load
callbacks are modelled separately below. -/
def JSketch.drawImage (s : JSketch) (src : String) (x y : Option Int) : JSketch :=
  { s with callStack := s.callStack ++ [CallEntry.method "addAsync" none] }

/-- jSketch.drawImage onload callback: native drawImage, push the drawImage
entry and the removeAsync marker. -/
def JSketch.drawImageOnload (s : JSketch) (src : String) (x y : Option Int) : JSketch :=
  let x0 := x.getD 0
  let y0 := y.getD 0
  { s with ctxLog := s.ctxLog ++ [CtxEffect.call "drawImage" [.image src, .num x0, .num y0]],
           callStack := s.callStack ++
             [CallEntry.method "drawImage" (some [.image src, .num x0, .num y0]),
              CallEntry.method "removeAsync" none] }

/-- jSketch.drawImage onerror callback: push the removeAsync marker. -/
def JSketch.drawImageOnerror (s : JSketch) : JSketch :=
  { s with callStack := s.callStack ++ [CallEntry.method "removeAsync" none] }

/-- The public jSketch methods named by the specification, as operations for
quantifying over entire method calls. -/
inductive Op
| setContext (elem : Option Canvas)
| setDefaults
| size (width height : Int)
| background (color : Val)
| stage (width height : Int) (bgcolor : Val)
| beginFill (color : Val)
| endFill
| lineStyle (color thickness capStyle joinStyle miter : Option Val)
| moveTo (x y : Int)
| lineTo (x y : Int)
| line (x1 y1 x2 y2 : Int)
| curveTo (x y cpx cpy : Int)
| curve (x1 y1 x2 y2 cpx cpy : Int)
| stroke
| strokeRect (x y width height : Int)
| fillRect (x y width height : Int)
| rect (x y width height : Int)
| strokeCircle (x y radius : Int)
| fillCircle (x y radius : Int)
| circle (x y radius : Int)
| beginPath
| closePath
| eraser
| pencil
| clear
| save
| restore
| saveGraphics (options : List (String × Option Val))
| restoreGraphics
| drawImage (src : String) (x y : Option Int)
deriving DecidableEq, Repr

/-- Dispatch one public method call on a jSketch instance. Only setContext can
throw; every other method completes and returns the receiver. -/
def jstep (op : Op) (s : JSketch) : Except JsErr JSketch :=
  match op with
  | .setContext elem => s.setContext elem
  | .setDefaults => .ok s.setDefaults
  | .size w h => .ok (s.size w h)
  | .background c => .ok (s.background c)
  | .stage w h c => .ok (s.stage w h c)
  | .beginFill c => .ok (s.beginFill c)
  | .endFill => .ok s.endFill
  | .lineStyle c t cap join miter => .ok (s.lineStyle c t cap join miter)
  | .moveTo x y => .ok (s.moveTo x y)
  | .lineTo x y => .ok (s.lineTo x y)
  | .line x1 y1 x2 y2 => .ok (s.line x1 y1 x2 y2)
  | .curveTo x y cpx cpy => .ok (s.curveTo x y cpx cpy)
  | .curve x1 y1 x2 y2 cpx cpy => .ok (s.curve x1 y1 x2 y2 cpx cpy)
  | .stroke => .ok s.stroke
  | .strokeRect x y w h => .ok (s.strokeRect x y w h)
  | .fillRect x y w h => .ok (s.fillRect x y w h)
  | .rect x y w h => .ok (s.rect x y w h)
  | .strokeCircle x y r => .ok (s.strokeCircle x y r)
  | .fillCircle x y r => .ok (s.fillCircle x y r)
  | .circle x y r => .ok (s.circle x y r)
  | .beginPath => .ok s.beginPath
  | .closePath => .ok s.closePath
  | .eraser => .ok s.eraser
  | .pencil => .ok s.pencil
  | .clear => .ok s.clear
  | .save => .ok s.save
  | .restore => .ok s.restore
  | .saveGraphics opts => .ok (JSketch.saveGraphics s opts)
  | .restoreGraphics => .ok s.restoreGraphics
  | .drawImage src x y => .ok (s.drawImage src x y)

/-- The only public method call that throws: setContext with a falsy element. -/
def opThrows : Op → Bool
| .setContext none => true
| _ => false

/-- The operations the specification lists as unconditionally appending a
replay-log entry (saveGraphics appends one entry per changed option and is
handled separately). -/
def appendsEntry : Op → Bool
| .moveTo _ _ => true
| .lineTo _ _ => true
| .curveTo _ _ _ _ => true
| .stroke => true
| .strokeRect _ _ _ _ => true
| .fillRect _ _ _ _ => true
| .rect _ _ _ _ => true
| .strokeCircle _ _ _ => true
| .fillCircle _ _ _ => true
| .circle _ _ _ => true
| .background _ => true
| .beginFill _ => true
| .eraser => true
| .pencil => true
| .clear => true
| .save => true
| .restore => true
| .beginPath => true
| .closePath => true
| _ => false

/-- The options a saveGraphics call actually stores and logs: the truthy
values that differ from the current data, threading the data updates in order. -/
def changedOptions (d : List (String × Val)) : List (String × Option Val) → List (String × Val)
| [] => []
| (opt, val) :: rest =>
  match val with
  | some v =>
    if v.truthy ∧ some v ≠ alGet d opt then
      (opt, v) :: changedOptions (alSet d opt v) rest
    else changedOptions d rest
  | none => changedOptions d rest

/-- The jSketch constructor: throws on a falsy element; otherwise sets the
context, the stage dimensions, `this.data = options` and an empty callStack,
and returns this.setDefaults(). When options was omitted, setDefaults reads
`this.data.fillStyle` from undefined and throws a TypeError. -/
def jSketch (elem : Option Canvas) (options : Option (List (String × Val))) :
    Except JsErr JSketch :=
  match elem with
  | none => .error (.thrown "Sketchable requires a DOM element.")
  | some c =>
    match options with
    | none => .error (.typeError "Cannot read properties of undefined")
    | some opts => .ok (JSketch.setDefaults ⟨c, [], c.width, c.height, opts, []⟩)

namespace Memento

/-- One entry of the MementoCanvas history stack: the bitmap snapshot
(`elem.toDataURL()`), a copy of the host widget's strokes data, and a copy of
the jSketch callStack, as pushed by MementoCanvas.save. -/
structure MEntry where
  image : String
  strokes : List Int
  callStack : List CallEntry
deriving DecidableEq, Repr

/-- The host-widget data a save reads: the canvas bitmap (`elem.toDataURL()`),
`data.strokes`, and `data.sketch.callStack` at the moment of the call. -/
structure Env where
  image : String
  strokes : List Int
  callStack : List CallEntry
deriving DecidableEq, Repr

/-- A DOM event as far as MementoCanvas.save inspects it: touch events carry
an identifier, mouse events do not (`ev.identifier` is undefined). -/
structure DomEvent where
  identifier : Option Int
deriving DecidableEq, Repr

/-- The private state of a MementoCanvas: `var stack = []; var stpos = -1;`. -/
structure MState where
  stack : List MEntry
  stpos : Int
deriving DecidableEq, Repr

/-- A thrown JavaScript exception inside the Memento plugin. -/
inductive MErr
| typeError
| jsonError
deriving DecidableEq, Repr

/-- The guard `ev && ev.identifier > 0` of MementoCanvas.save: a present event
whose identifier is defined and greater than 0 (undefined > 0 is false). -/
def multiTouch : Option DomEvent → Bool
| some ev =>
  match ev.identifier with
  | some i => decide (0 < i)
  | none => false
| none => false

/-- The JS expression `stack[stpos]`: undefined when stpos is out of range
(in particular when stpos = -1 on an empty stack). -/
def currentEntry (st : MState) : Option MEntry :=
  if 0 ≤ st.stpos then st.stack[st.stpos.toNat]? else none

/-- MementoCanvas.undo: when stpos > 0, decrement stpos and call
this.restore() (which redraws stack[stpos]); otherwise do nothing. Returns the
updated state and the entry handed to restore (none when restore is not
called). -/
def undo (st : MState) : MState × Option MEntry :=
  if 0 < st.stpos then
    let st1 : MState := ⟨st.stack, st.stpos - 1⟩
    (st1, currentEntry st1)
  else (st, none)

/-- MementoCanvas.redo: when stpos < stack.length - 1, increment stpos and call
this.restore(); otherwise do nothing. Returns the updated state and the entry
handed to restore (none when restore is not called). -/
def redo (st : MState) : MState × Option MEntry :=
  if st.stpos < (st.stack.length : Int) - 1 then
    let st1 : MState := ⟨st.stack, st.stpos + 1⟩
    (st1, currentEntry st1)
  else (st, none)

/-- MementoCanvas.save(ev): with a multi-touch event (identifier > 0), replace
the strokes of the current entry, `stack[stpos].strokes = data.strokes.slice()`
(a TypeError when stack[stpos] is undefined); otherwise push a fresh entry with
the bitmap snapshot, strokes copy and callStack copy, and increment stpos. -/
def save (ev : Option DomEvent) (env : Env) (st : MState) : Except MErr MState :=
  if multiTouch ev then
    match currentEntry st with
    | some e =>
      .ok ⟨st.stack.set st.stpos.toNat { e with strokes := env.strokes }, st.stpos⟩
    | none => .error .typeError
  else
    .ok ⟨st.stack ++ [⟨env.image, env.strokes, env.callStack⟩], st.stpos + 1⟩

/-- MementoCanvas.reset: `stack = []; stpos = -1;` then this.save() with no
event, which pushes one blank entry. -/
def reset (env : Env) : MState :=
  match save none env ⟨[], -1⟩ with
  | .ok st1 => st1
  | .error _ => ⟨[], -1⟩

/-- MementoCanvas.state: `JSON.parse(JSON.stringify(stack[stpos]))`. When
stack[stpos] is undefined this is JSON.parse of the string "undefined", which
throws; otherwise it yields a deep copy, value-equal to the entry (the JSON
round-trip is the identity on the entry's value). -/
def state (st : MState) : Except MErr MEntry :=
  match currentEntry st with
  | some e => .ok e
  | none => .error .jsonError

/-- MementoCanvas.restore(state): does not touch stack or stpos; the entry
drawn asynchronously is the argument, defaulted to stack[stpos]. -/
def restoreOp (st : MState) (arg : Option MEntry) : MState × Option MEntry :=
  (st, match arg with
       | some e => some e
       | none => currentEntry st)

/-- MementoCanvas.init: (re)attach the keypress listeners, then this.save()
with no event, pushing the initial blank entry. -/
def init (env : Env) (st : MState) : MState :=
  match save none env st with
  | .ok st1 => st1
  | .error _ => st

/-- The Memento operations the specification quantifies over. Each save or
reset reads the host environment at the moment of the call. -/
inductive MOp
| save (ev : Option DomEvent) (env : Env)
| undo
| redo
| reset (env : Env)
| restore (arg : Option MEntry)
deriving DecidableEq, Repr

/-- Execute one Memento operation. An operation that throws (multi-touch save
on an undefined stack[stpos]) aborts before mutating anything, leaving the
state unchanged. -/
def mstep (op : MOp) (st : MState) : MState :=
  match op with
  | .save ev env =>
    match save ev env st with
    | .ok st1 => st1
    | .error _ => st
  | .undo => (undo st).1
  | .redo => (redo st).1
  | .reset env => reset env
  | .restore arg => (restoreOp st arg).1

/-- Run a sequence of Memento operations from a given state. -/
def mrunFrom (st : MState) (ops : List MOp) : MState :=
  ops.foldl (fun s op => mstep op s) st

/-- Run a sequence of Memento operations from the freshly constructed state
`stack = [], stpos = -1`. -/
def mrun (ops : List MOp) : MState :=
  mrunFrom ⟨[], -1⟩ ops

/-- The history-stack invariant of the specification:
-1 <= stpos <= stack.length - 1, and stpos >= 0 whenever the stack is
non-empty. -/
def Inv (st : MState) : Prop :=
  -1 ≤ st.stpos ∧ st.stpos ≤ (st.stack.length : Int) - 1 ∧
    (st.stack ≠ [] → 0 ≤ st.stpos)

instance (st : MState) : Decidable (Inv st) := by
  unfold Inv
  infer_instance

/-- The key-event actions MementoCanvas.keyManager can dispatch. -/
inductive KAction
| undo
| redo
| nothing
deriving DecidableEq, Repr

/-- MementoCanvas.keyManager: on a ctrl keypress, key code 26 dispatches redo
with shift held and undo without; key code 25 dispatches redo; anything else
dispatches nothing. -/
def keyManager (ctrlKey shiftKey : Bool) (which : Nat) : KAction :=
  if ctrlKey then
    if which = 26 then
      if shiftKey then .redo else .undo
    else if which = 25 then .redo
    else .nothing
  else .nothing

end Memento

/-- A concrete 300x150 canvas element, for instantiating theorems. -/
def demoCanvas : Canvas := ⟨300, 150⟩

/-- A concrete freshly constructed jSketch state over demoCanvas. -/
def demoSketch : JSketch := ⟨demoCanvas, [], 300, 150, [], []⟩

/-- A concrete save environment: first snapshot. -/
def Memento.envA : Memento.Env := ⟨"imgA", [], []⟩

/-- A concrete save environment: second snapshot. -/
def Memento.envB : Memento.Env := ⟨"imgB", [], []⟩

/-- A concrete save environment: third snapshot, with one stroke. -/
def Memento.envC : Memento.Env := ⟨"imgC", [1], []⟩

/-- The history entry the code pushes when saving in envA. -/
def Memento.entA : Memento.MEntry := ⟨"imgA", [], []⟩

/-- The history entry the code pushes when saving in envB. -/
def Memento.entB : Memento.MEntry := ⟨"imgB", [], []⟩

/-- The operation sequence save, save, undo, save: a save issued after an
undo, i.e. with stpos strictly below the top of the stack. -/
def Memento.demoOps : List Memento.MOp :=
  [Memento.MOp.save none Memento.envA, Memento.MOp.save none Memento.envB,
   Memento.MOp.undo, Memento.MOp.save none Memento.envC]

namespace Memento

/-- Unfolding of `stack[stpos]` being defined: stpos is non-negative, in
range, and indexes the entry. -/
theorem currentEntry_spec {st : MState} {e : MEntry} (h : currentEntry st = some e) :
    0 ≤ st.stpos ∧ st.stpos.toNat < st.stack.length ∧
      st.stack[st.stpos.toNat]? = some e := by
  unfold currentEntry at h
  by_cases hp : 0 ≤ st.stpos
  · rw [if_pos hp] at h
    obtain ⟨hlt, -⟩ := List.getElem?_eq_some.mp h
    exact ⟨hp, hlt, h⟩
  · rw [if_neg hp] at h
    exact absurd h (by simp)

/-- When the index is in range, `stack[stpos]` is defined. -/
theorem currentEntry_of_inv {st : MState} (h : Inv st) (hne : st.stack ≠ []) :
    ∃ e, currentEntry st = some e := by
  obtain ⟨h1, h2, h3⟩ := h
  have hp : 0 ≤ st.stpos := h3 hne
  have hlen : 0 < st.stack.length := List.length_pos.mpr hne
  have hlt : st.stpos.toNat < st.stack.length := by omega
  unfold currentEntry
  rw [if_pos hp]
  exact ⟨st.stack[st.stpos.toNat], List.getElem?_eq_getElem hlt⟩

/-- Introduction form of the invariant for an explicit state. -/
theorem inv_mk {l : List MEntry} {p : Int} (h1 : -1 ≤ p)
    (h2 : p ≤ (l.length : Int) - 1) (h3 : l ≠ [] → 0 ≤ p) :
    Inv ⟨l, p⟩ :=
  ⟨h1, h2, h3⟩

/-- Every Memento operation preserves the history-stack invariant. -/
theorem inv_mstep (op : MOp) (st : MState) (h : Inv st) : Inv (mstep op st) := by
  obtain ⟨h1, h2, h3⟩ := h
  cases op with
  | save ev env =>
    simp only [mstep, save]
    cases hm : multiTouch ev with
    | true =>
      simp only [if_true]
      cases hce : currentEntry st with
      | none => exact ⟨h1, h2, h3⟩
      | some e =>
        obtain ⟨hp, hlt, -⟩ := currentEntry_spec hce
        exact inv_mk h1 (by simpa using h2) (fun _ => hp)
    | false =>
      simp only [Bool.false_eq_true, if_false]
      refine inv_mk (by omega) ?_ (fun _ => by omega)
      simp only [List.length_append, List.length_cons, List.length_nil]
      push_cast
      omega
  | undo =>
    simp only [mstep, undo]
    split
    · next hlt =>
      show Inv ⟨st.stack, st.stpos - 1⟩
      exact inv_mk (by omega) (by omega) (fun _ => by omega)
    · exact ⟨h1, h2, h3⟩
  | redo =>
    simp only [mstep, redo]
    split
    · next hlt =>
      show Inv ⟨st.stack, st.stpos + 1⟩
      exact inv_mk (by omega) (by omega) (fun _ => by omega)
    · exact ⟨h1, h2, h3⟩
  | reset env =>
    have hr : reset env = ⟨[⟨env.image, env.strokes, env.callStack⟩], 0⟩ := rfl
    rw [mstep, hr]
    exact inv_mk (by norm_num) (by simp) (fun _ => le_refl 0)
  | restore arg => exact ⟨h1, h2, h3⟩

/-- The invariant holds along every run. -/
theorem inv_mrunFrom (ops : List MOp) (st : MState) (h : Inv st) :
    Inv (mrunFrom st ops) := by
  induction ops generalizing st with
  | nil => exact h
  | cons op rest ih => exact ih (mstep op st) (inv_mstep op st h)

/-- No Memento operation empties a non-empty history stack. -/
theorem stack_ne_nil_mstep (op : MOp) (st : MState) (h : st.stack ≠ []) :
    (mstep op st).stack ≠ [] := by
  cases op with
  | save ev env =>
    simp only [mstep, save]
    cases hm : multiTouch ev with
    | true =>
      cases hce : currentEntry st with
      | none => simpa using h
      | some e =>
        simp only [if_true]
        intro hnil
        have hlen := congrArg List.length hnil
        simp only [List.length_set, List.length_nil] at hlen
        exact h (List.length_eq_zero.mp hlen)
    | false => simp
  | undo =>
    simp only [mstep, undo]
    split <;> simpa using h
  | redo =>
    simp only [mstep, redo]
    split <;> simpa using h
  | reset env =>
    have hr : reset env = ⟨[⟨env.image, env.strokes, env.callStack⟩], 0⟩ := rfl
    rw [mstep, hr]
    simp
  | restore arg => simpa using h

/-- Non-emptiness of the stack is preserved along every run. -/
theorem stack_ne_nil_mrunFrom (ops : List MOp) (st : MState) (h : st.stack ≠ []) :
    (mrunFrom st ops).stack ≠ [] := by
  induction ops generalizing st with
  | nil => exact h
  | cons op rest ih => exact ih (mstep op st) (stack_ne_nil_mstep op st h)

end Memento

/-- Transitivity of callStack extension. -/
theorem csGrows_trans {a b c : JSketch}
    (h1 : ∃ t, b.callStack = a.callStack ++ t)
    (h2 : ∃ u, c.callStack = b.callStack ++ u) :
    ∃ v, c.callStack = a.callStack ++ v := by
  obtain ⟨t, ht⟩ := h1
  obtain ⟨u, hu⟩ := h2
  exact ⟨t ++ u, by rw [hu, ht, List.append_assoc]⟩

/-- saveGraphics appends exactly one property entry per changed option, in
order, and touches nothing already on the callStack. -/
theorem saveGraphics_changed (opts : List (String × Option Val)) (s : JSketch) :
    (JSketch.saveGraphics s opts).callStack =
      s.callStack ++
        (changedOptions s.data opts).map (fun kv => CallEntry.property kv.1 kv.2) := by
  induction opts generalizing s with
  | nil => simp [JSketch.saveGraphics, changedOptions]
  | cons kv rest ih =>
    obtain ⟨opt, val⟩ := kv
    cases val with
    | none =>
      simp only [JSketch.saveGraphics, changedOptions]
      exact ih s
    | some v =>
      by_cases hc : v.truthy ∧ some v ≠ alGet s.data opt
      · simp only [JSketch.saveGraphics, changedOptions, if_pos hc]
        rw [ih]
        simp [List.append_assoc]
      · simp only [JSketch.saveGraphics, changedOptions, if_neg hc]
        exact ih s

/-- saveGraphics only extends the callStack. -/
theorem saveGraphics_grows (s : JSketch) (opts : List (String × Option Val)) :
    ∃ t, (JSketch.saveGraphics s opts).callStack = s.callStack ++ t :=
  ⟨_, saveGraphics_changed opts s⟩

/-- restoreGraphics leaves the callStack untouched. -/
theorem restoreGraphics_callStack (s : JSketch) :
    (s.restoreGraphics).callStack = s.callStack := rfl

/-- setDefaults only extends the callStack (six property entries, then the
changed options logged by saveGraphics). -/
theorem setDefaults_grows (s : JSketch) :
    ∃ t, (s.setDefaults).callStack = s.callStack ++ t := by
  unfold JSketch.setDefaults
  rw [restoreGraphics_callStack, saveGraphics_changed]
  exact ⟨_, by rw [List.append_assoc]⟩

/-- lineStyle only extends the callStack. -/
theorem lineStyle_grows (s : JSketch) (c t cap join miter : Option Val) :
    ∃ u, (s.lineStyle c t cap join miter).callStack = s.callStack ++ u := by
  unfold JSketch.lineStyle
  rw [restoreGraphics_callStack, saveGraphics_changed]
  exact ⟨_, rfl⟩

/-- Claim C1: for every sequence of Memento operations (save, undo, redo,
reset, restore) from the fresh state, the history position satisfies
-1 <= stpos <= stack.length - 1, with stpos >= 0 whenever the stack is
non-empty; and every entry a save pushes carries, from that same save, all
three lock-step components: the bitmap snapshot, the strokes copy, and the
callStack copy. -/
theorem c1_history_invariant :
    (∀ ops : List Memento.MOp, Memento.Inv (Memento.mrun ops)) ∧
    (∀ (ev : Option Memento.DomEvent) (env : Memento.Env) (st : Memento.MState),
      Memento.multiTouch ev = false →
      Memento.save ev env st =
        .ok ⟨st.stack ++ [⟨env.image, env.strokes, env.callStack⟩], st.stpos + 1⟩) := by
  constructor
  · intro ops
    exact Memento.inv_mrunFrom ops ⟨[], -1⟩ (by decide)
  · intro ev env st hm
    simp [Memento.save, hm]

/-- Witness for C1 at the run save-undo and at a concrete non-multi-touch
save from the fresh state. -/
theorem c1_witness :
    Memento.Inv (Memento.mrun [Memento.MOp.save none Memento.envA, Memento.MOp.undo]) ∧
    Memento.save none Memento.envA ⟨[], -1⟩ =
      .ok ⟨[] ++ [⟨Memento.envA.image, Memento.envA.strokes, Memento.envA.callStack⟩],
           -1 + 1⟩ :=
  ⟨c1_history_invariant.1 [Memento.MOp.save none Memento.envA, Memento.MOp.undo],
   c1_history_invariant.2 none Memento.envA ⟨[], -1⟩ rfl⟩

/-- Claim C2: a save with a multi-touch event (identifier > 0) pushes nothing
and leaves stpos alone; it only overwrites the strokes of the current entry
stack[stpos] with a copy of the current strokes, keeping that entry's image
and callStack and every other entry (List.set semantics), and the stack
length is unchanged. -/
theorem c2_multitouch_save :
    ∀ (st : Memento.MState) (env : Memento.Env) (ev : Option Memento.DomEvent)
      (e : Memento.MEntry),
      Memento.multiTouch ev = true →
      Memento.currentEntry st = some e →
      Memento.save ev env st =
        .ok ⟨st.stack.set st.stpos.toNat ⟨e.image, env.strokes, e.callStack⟩,
             st.stpos⟩ ∧
      (st.stack.set st.stpos.toNat ⟨e.image, env.strokes, e.callStack⟩).length =
        st.stack.length := by
  intro st env ev e hm hce
  refine ⟨?_, by simp⟩
  simp [Memento.save, hm, hce]

/-- Witness for C2: a second touch point saving over a one-entry stack. -/
theorem c2_witness :
    Memento.save (some ⟨some 1⟩) Memento.envC ⟨[Memento.entA], 0⟩ =
      .ok ⟨[Memento.entA].set (0 : Int).toNat
             ⟨Memento.entA.image, Memento.envC.strokes, Memento.entA.callStack⟩,
           0⟩ ∧
    ([Memento.entA].set (0 : Int).toNat
        ⟨Memento.entA.image, Memento.envC.strokes, Memento.entA.callStack⟩).length =
      [Memento.entA].length :=
  c2_multitouch_save ⟨[Memento.entA], 0⟩ Memento.envC (some ⟨some 1⟩) Memento.entA rfl rfl

/-- Counterexample to C3: run save, save, undo, save from the fresh state.
The final save appends its entry at index 2, but stpos ends at 1, still
pointing at the imgB entry, not at the new imgC entry: the code never
truncates the redo tail, so after an undo the incremented stpos does not
point at the newly appended entry. -/
theorem c3_counterexample :
    (Memento.mrun Memento.demoOps).stpos = 1 ∧
    (Memento.mrun Memento.demoOps).stack.length = 3 ∧
    (Memento.mrun Memento.demoOps).stack[(1 : Int).toNat]? = some Memento.entB ∧
    Memento.entB ≠
      (⟨Memento.envC.image, Memento.envC.strokes, Memento.envC.callStack⟩ :
        Memento.MEntry) := by
  decide

/-- Claim C3 as amended: a save without an event, or with a non-multi-touch
event, appends exactly one entry holding the bitmap snapshot, the strokes
copy and the callStack copy, at the end of the stack, and increments stpos by
exactly one; stpos points at the new entry whenever the save occurs with
stpos at the top of the stack (stpos = stack.length - 1 beforehand), but not
in general, because a save after undos does not truncate the redo tail. -/
theorem c3_save_appends :
    ∀ (ev : Option Memento.DomEvent) (env : Memento.Env) (st : Memento.MState),
      Memento.multiTouch ev = false →
      Memento.save ev env st =
        .ok ⟨st.stack ++ [⟨env.image, env.strokes, env.callStack⟩], st.stpos + 1⟩ ∧
      (st.stack ++ [⟨env.image, env.strokes, env.callStack⟩])[st.stack.length]? =
        some ⟨env.image, env.strokes, env.callStack⟩ ∧
      (st.stpos = (st.stack.length : Int) - 1 →
        Memento.currentEntry
            ⟨st.stack ++ [⟨env.image, env.strokes, env.callStack⟩], st.stpos + 1⟩ =
          some ⟨env.image, env.strokes, env.callStack⟩) := by
  intro ev env st hm
  refine ⟨by simp [Memento.save, hm], ?_, ?_⟩
  · rw [List.getElem?_append_right (le_refl _)]
    simp
  · intro htop
    unfold Memento.currentEntry
    have hlen : (0 : Int) ≤ (st.stack.length : Int) := by positivity
    dsimp only
    rw [if_pos (show (0 : Int) ≤ st.stpos + 1 by omega)]
    have ht : (st.stpos + 1).toNat = st.stack.length := by omega
    rw [ht, List.getElem?_append_right (le_refl _)]
    simp

/-- Witness for C3 as amended: the first save from the fresh state. -/
theorem c3_witness :
    Memento.save none Memento.envA ⟨[], -1⟩ =
      .ok ⟨[] ++ [⟨Memento.envA.image, Memento.envA.strokes, Memento.envA.callStack⟩],
           -1 + 1⟩ :=
  (c3_save_appends none Memento.envA ⟨[], -1⟩ rfl).1

/-- Computation rule for undo away from the bottom of the stack. -/
theorem Memento.undo_eq_of_pos (stack : List Memento.MEntry) (p : Int) (h : 0 < p) :
    Memento.undo ⟨stack, p⟩ =
      (⟨stack, p - 1⟩, Memento.currentEntry ⟨stack, p - 1⟩) := by
  show (if 0 < p then
          ((⟨stack, p - 1⟩ : Memento.MState), Memento.currentEntry ⟨stack, p - 1⟩)
        else (⟨stack, p⟩, none)) = _
  rw [if_pos h]

/-- Computation rule for redo away from the top of the stack. -/
theorem Memento.redo_eq_of_lt (stack : List Memento.MEntry) (p : Int)
    (h : p < (stack.length : Int) - 1) :
    Memento.redo ⟨stack, p⟩ =
      (⟨stack, p + 1⟩, Memento.currentEntry ⟨stack, p + 1⟩) := by
  show (if p < (stack.length : Int) - 1 then
          ((⟨stack, p + 1⟩ : Memento.MState), Memento.currentEntry ⟨stack, p + 1⟩)
        else (⟨stack, p⟩, none)) = _
  rw [if_pos h]

/-- Claim C4: on any state satisfying the (always maintained) bounds, undo
followed by redo is the identity on the whole state, and the redo hands
restore exactly the entry at the original stpos; symmetrically redo followed
by undo is the identity; and neither undo nor redo ever adds or removes stack
entries. -/
theorem c4_undo_redo_inverse :
    (∀ st : Memento.MState, 0 < st.stpos → st.stpos ≤ (st.stack.length : Int) - 1 →
      (Memento.redo (Memento.undo st).1).1 = st ∧
      (Memento.redo (Memento.undo st).1).2 = Memento.currentEntry st) ∧
    (∀ st : Memento.MState, 0 ≤ st.stpos → st.stpos < (st.stack.length : Int) - 1 →
      (Memento.undo (Memento.redo st).1).1 = st) ∧
    (∀ st : Memento.MState,
      (Memento.undo st).1.stack = st.stack ∧ (Memento.redo st).1.stack = st.stack) := by
  refine ⟨?_, ?_, ?_⟩
  · rintro ⟨stack, stpos⟩ h1 h2
    dsimp only at h1 h2
    have he : stpos - 1 + 1 = stpos := by omega
    have h3 : (Memento.undo ⟨stack, stpos⟩).1 = ⟨stack, stpos - 1⟩ := by
      rw [Memento.undo_eq_of_pos stack stpos h1]
    rw [h3, Memento.redo_eq_of_lt stack (stpos - 1) (by omega), he]
    exact ⟨rfl, rfl⟩
  · rintro ⟨stack, stpos⟩ h1 h2
    dsimp only at h1 h2
    have he : stpos + 1 - 1 = stpos := by omega
    have h3 : (Memento.redo ⟨stack, stpos⟩).1 = ⟨stack, stpos + 1⟩ := by
      rw [Memento.redo_eq_of_lt stack stpos h2]
    rw [h3, Memento.undo_eq_of_pos stack (stpos + 1) (by omega), he]
  · intro st
    constructor
    · unfold Memento.undo
      split <;> rfl
    · unfold Memento.redo
      split <;> rfl

/-- Witness for C4 at the two-entry stack with stpos = 1 (first part) and
stpos = 0 (second part). -/
theorem c4_witness :
    ((Memento.redo (Memento.undo ⟨[Memento.entA, Memento.entB], 1⟩).1).1 =
       (⟨[Memento.entA, Memento.entB], 1⟩ : Memento.MState) ∧
     (Memento.redo (Memento.undo ⟨[Memento.entA, Memento.entB], 1⟩).1).2 =
       Memento.currentEntry ⟨[Memento.entA, Memento.entB], 1⟩) ∧
    (Memento.undo (Memento.redo ⟨[Memento.entA, Memento.entB], 0⟩).1).1 =
      (⟨[Memento.entA, Memento.entB], 0⟩ : Memento.MState) :=
  ⟨c4_undo_redo_inverse.1 ⟨[Memento.entA, Memento.entB], 1⟩ (by decide) (by decide),
   c4_undo_redo_inverse.2.1 ⟨[Memento.entA, Memento.entB], 0⟩ (by decide) (by decide)⟩

/-- Claim C5: at the boundaries undo and redo are complete no-ops: undo with
stpos <= 0 and redo with stpos >= stack.length - 1 return the instance with
stack, stpos and canvas untouched (restore is never invoked, so nothing is
redrawn). -/
theorem c5_boundary_noops :
    (∀ st : Memento.MState, st.stpos ≤ 0 → Memento.undo st = (st, none)) ∧
    (∀ st : Memento.MState, (st.stack.length : Int) - 1 ≤ st.stpos →
      Memento.redo st = (st, none)) := by
  constructor
  · intro st h
    unfold Memento.undo
    rw [if_neg (by omega)]
  · intro st h
    unfold Memento.redo
    rw [if_neg (by omega)]

/-- Witness for C5: undo at the bottom and redo at the top of a one-entry
stack. -/
theorem c5_witness :
    Memento.undo ⟨[Memento.entA], 0⟩ = (⟨[Memento.entA], 0⟩, none) ∧
    Memento.redo ⟨[Memento.entA], 0⟩ = (⟨[Memento.entA], 0⟩, none) :=
  ⟨c5_boundary_noops.1 ⟨[Memento.entA], 0⟩ (by decide),
   c5_boundary_noops.2 ⟨[Memento.entA], 0⟩ (by decide)⟩

/-- Claim C8: the keyboard shortcut dispatch. Redo fires exactly for ctrl
with key code 26 plus shift, or ctrl with key code 25; undo fires exactly for
ctrl with key code 26 without shift; every other key event (in particular any
without ctrl) dispatches nothing. -/
theorem c8_keymanager_dispatch :
    ∀ (ctrl shift : Bool) (which : Nat),
      (Memento.keyManager ctrl shift which = .redo ↔
        ctrl = true ∧ ((which = 26 ∧ shift = true) ∨ which = 25)) ∧
      (Memento.keyManager ctrl shift which = .undo ↔
        ctrl = true ∧ which = 26 ∧ shift = false) ∧
      (Memento.keyManager ctrl shift which = .nothing ↔
        ¬(ctrl = true ∧ ((which = 26 ∧ shift = true) ∨ which = 25)) ∧
        ¬(ctrl = true ∧ which = 26 ∧ shift = false)) := by
  intro ctrl shift which
  cases ctrl <;> cases shift <;>
    simp only [Memento.keyManager] <;>
    split_ifs <;> simp_all

/-- Witness for C8 at ctrl+Z without shift (undo). -/
theorem c8_witness :
    (Memento.keyManager true false 26 = .redo ↔
      true = true ∧ ((26 = 26 ∧ false = true) ∨ 26 = 25)) ∧
    (Memento.keyManager true false 26 = .undo ↔
      true = true ∧ 26 = 26 ∧ false = false) ∧
    (Memento.keyManager true false 26 = .nothing ↔
      ¬(true = true ∧ ((26 = 26 ∧ false = true) ∨ 26 = 25)) ∧
      ¬(true = true ∧ 26 = 26 ∧ false = false)) :=
  c8_keymanager_dispatch true false 26

/-- Claim C9: state() returns the entry at stpos whenever stack[stpos] is
defined (the JSON round-trip yields a value-equal deep copy, modelled as the
entry itself); before any save (stack = [], stpos = -1) it throws instead of
returning; and once init has saved the initial blank entry, every later
operation sequence leaves the stack non-empty and within bounds, so state()
always returns an entry and the error branch is unreachable. -/
theorem c9_state_access :
    (∀ (st : Memento.MState) (e : Memento.MEntry),
      Memento.currentEntry st = some e → Memento.state st = .ok e) ∧
    Memento.state ⟨[], -1⟩ = .error .jsonError ∧
    (∀ (env : Memento.Env) (ops : List Memento.MOp),
      ∃ e, Memento.state (Memento.mrunFrom (Memento.init env ⟨[], -1⟩) ops) = .ok e) := by
  refine ⟨?_, rfl, ?_⟩
  · intro st e h
    unfold Memento.state
    rw [h]
  · intro env ops
    have hinit : Memento.init env ⟨[], -1⟩ =
        ⟨[⟨env.image, env.strokes, env.callStack⟩], 0⟩ := rfl
    have hinv : Memento.Inv (Memento.mrunFrom (Memento.init env ⟨[], -1⟩) ops) := by
      apply Memento.inv_mrunFrom
      rw [hinit]
      exact Memento.inv_mk (by norm_num) (by simp) (fun _ => le_refl 0)
    have hne : (Memento.mrunFrom (Memento.init env ⟨[], -1⟩) ops).stack ≠ [] := by
      apply Memento.stack_ne_nil_mrunFrom
      rw [hinit]
      simp
    obtain ⟨e, he⟩ := Memento.currentEntry_of_inv hinv hne
    refine ⟨e, ?_⟩
    unfold Memento.state
    rw [he]

/-- Witness for C9: state() on a one-entry stack returns that entry, and the
error branch is unreachable after init from the fresh state. -/
theorem c9_witness :
    Memento.state ⟨[Memento.entA], 0⟩ = .ok Memento.entA ∧
    ∃ e, Memento.state (Memento.mrunFrom (Memento.init Memento.envA ⟨[], -1⟩)
      [Memento.MOp.undo]) = .ok e :=
  ⟨c9_state_access.1 ⟨[Memento.entA], 0⟩ Memento.entA rfl,
   c9_state_access.2.2 Memento.envA [Memento.MOp.undo]⟩

/-- Counterexample to C6 as stated: setContext is a public jSketch method, and
called with a falsy element it throws instead of returning the receiver, so
not every public method returns the instance for every input. -/
theorem c6_counterexample :
    jstep (Op.setContext none) demoSketch =
      .error (JsErr.thrown "No canvas element specified.") := rfl

/-- Claim C6 as amended: every public jSketch method returns the receiver
jSketch instance on every input on which it completes normally, so calls are
chainable; the sole exception is setContext, which throws
'No canvas element specified.' for a falsy element instead of returning. -/
theorem c6_chainable :
    ∀ (op : Op) (s : JSketch), opThrows op = false → ∃ s', jstep op s = .ok s' := by
  intro op s h
  cases op
  case setContext elem =>
    cases elem with
    | none => simp [opThrows] at h
    | some c => exact ⟨_, rfl⟩
  all_goals exact ⟨_, rfl⟩

/-- Witness for C6 as amended: a stroke call on a concrete instance returns
the instance. -/
theorem c6_witness : ∃ s', jstep Op.stroke demoSketch = .ok s' :=
  c6_chainable Op.stroke demoSketch rfl

/-- Claim C10: the constructor throws 'Sketchable requires a DOM element.' on
a falsy elem whatever the options; with a valid element but options omitted it
also throws, because setDefaults reads this.data.fillStyle from undefined; and
with a truthy element and an options object it completes, so that pair is the
constructor's actual precondition. -/
theorem c10_constructor_precondition :
    (∀ opts, jSketch none opts = .error (.thrown "Sketchable requires a DOM element.")) ∧
    (∀ c, jSketch (some c) none = .error (.typeError "Cannot read properties of undefined")) ∧
    (∀ c opts, ∃ s, jSketch (some c) (some opts) = .ok s) :=
  ⟨fun _ => rfl, fun _ => rfl, fun c opts => ⟨_, rfl⟩⟩

/-- Witness for C10 at the concrete demo canvas and empty options. -/
theorem c10_witness :
    jSketch none (some []) = .error (.thrown "Sketchable requires a DOM element.") ∧
    jSketch (some demoCanvas) none =
      .error (.typeError "Cannot read properties of undefined") ∧
    ∃ s, jSketch (some demoCanvas) (some []) = .ok s :=
  ⟨c10_constructor_precondition.1 (some []),
   c10_constructor_precondition.2.1 demoCanvas,
   c10_constructor_precondition.2.2 demoCanvas []⟩

/-- Claim C7: the callStack is an append-only replay log. Every public method
call that completes leaves the previous callStack as a prefix (nothing is
removed, reordered or rewritten); each of the listed drawing or style
operations strictly appends at least one entry recording the call; and
saveGraphics appends exactly one property entry per changed option. -/
theorem c7_callstack_append_only :
    (∀ (op : Op) (s s' : JSketch), jstep op s = .ok s' →
      ∃ t, s'.callStack = s.callStack ++ t) ∧
    (∀ (op : Op) (s s' : JSketch), appendsEntry op = true → jstep op s = .ok s' →
      s.callStack.length < s'.callStack.length) ∧
    (∀ (s : JSketch) (opts : List (String × Option Val)),
      (JSketch.saveGraphics s opts).callStack =
        s.callStack ++
          (changedOptions s.data opts).map (fun kv => CallEntry.property kv.1 kv.2)) := by
  refine ⟨?_, ?_, fun s opts => saveGraphics_changed opts s⟩
  · intro op s s' h
    cases op with
    | setContext elem =>
      cases elem with
      | none => simp [jstep, JSketch.setContext] at h
      | some c =>
        simp only [jstep, JSketch.setContext, Except.ok.injEq] at h
        subst h
        exact ⟨[], (List.append_nil _).symm⟩
    | setDefaults =>
      simp only [jstep, Except.ok.injEq] at h
      subst h
      exact setDefaults_grows s
    | size width height =>
      simp only [jstep, Except.ok.injEq] at h
      subst h
      exact ⟨[], (List.append_nil _).symm⟩
    | background color =>
      simp only [jstep, Except.ok.injEq] at h
      subst h
      simp only [JSketch.background, JSketch.beginFill, JSketch.endFill,
        JSketch.restoreGraphics, JSketch.saveGraphics, List.append_assoc]
      exact ⟨_, rfl⟩
    | stage width height bgcolor =>
      simp only [jstep, Except.ok.injEq] at h
      subst h
      simp only [JSketch.stage, JSketch.size, JSketch.background, JSketch.beginFill,
        JSketch.endFill, JSketch.restoreGraphics, JSketch.saveGraphics,
        List.append_assoc]
      exact ⟨_, rfl⟩
    | beginFill color =>
      simp only [jstep, Except.ok.injEq] at h
      subst h
      exact ⟨_, rfl⟩
    | endFill =>
      simp only [jstep, Except.ok.injEq] at h
      subst h
      exact ⟨[], (List.append_nil _).symm⟩
    | lineStyle color thickness capStyle joinStyle miter =>
      simp only [jstep, Except.ok.injEq] at h
      subst h
      exact lineStyle_grows s color thickness capStyle joinStyle miter
    | moveTo x y =>
      simp only [jstep, Except.ok.injEq] at h
      subst h
      exact ⟨_, rfl⟩
    | lineTo x y =>
      simp only [jstep, Except.ok.injEq] at h
      subst h
      exact ⟨_, rfl⟩
    | line x1 y1 x2 y2 =>
      simp only [jstep, Except.ok.injEq] at h
      subst h
      simp only [JSketch.line, JSketch.moveTo, JSketch.lineTo, List.append_assoc]
      exact ⟨_, rfl⟩
    | curveTo x y cpx cpy =>
      simp only [jstep, Except.ok.injEq] at h
      subst h
      exact ⟨_, rfl⟩
    | curve x1 y1 x2 y2 cpx cpy =>
      simp only [jstep, Except.ok.injEq] at h
      subst h
      simp only [JSketch.curve, JSketch.moveTo, JSketch.curveTo, List.append_assoc]
      exact ⟨_, rfl⟩
    | stroke =>
      simp only [jstep, Except.ok.injEq] at h
      subst h
      exact ⟨_, rfl⟩
    | strokeRect x y width height =>
      simp only [jstep, Except.ok.injEq] at h
      subst h
      exact ⟨_, rfl⟩
    | fillRect x y width height =>
      simp only [jstep, Except.ok.injEq] at h
      subst h
      exact ⟨_, rfl⟩
    | rect x y width height =>
      simp only [jstep, Except.ok.injEq] at h
      subst h
      simp only [JSketch.rect, JSketch.fillRect, JSketch.strokeRect, List.append_assoc]
      exact ⟨_, rfl⟩
    | strokeCircle x y radius =>
      simp only [jstep, Except.ok.injEq] at h
      subst h
      exact ⟨_, rfl⟩
    | fillCircle x y radius =>
      simp only [jstep, Except.ok.injEq] at h
      subst h
      exact ⟨_, rfl⟩
    | circle x y radius =>
      simp only [jstep, Except.ok.injEq] at h
      subst h
      simp only [JSketch.circle, JSketch.fillCircle, JSketch.strokeCircle,
        List.append_assoc]
      exact ⟨_, rfl⟩
    | beginPath =>
      simp only [jstep, Except.ok.injEq] at h
      subst h
      exact ⟨_, rfl⟩
    | closePath =>
      simp only [jstep, Except.ok.injEq] at h
      subst h
      exact ⟨_, rfl⟩
    | eraser =>
      simp only [jstep, Except.ok.injEq] at h
      subst h
      exact ⟨_, rfl⟩
    | pencil =>
      simp only [jstep, Except.ok.injEq] at h
      subst h
      exact ⟨_, rfl⟩
    | clear =>
      simp only [jstep, Except.ok.injEq] at h
      subst h
      exact ⟨_, rfl⟩
    | save =>
      simp only [jstep, Except.ok.injEq] at h
      subst h
      exact ⟨_, rfl⟩
    | restore =>
      simp only [jstep, Except.ok.injEq] at h
      subst h
      exact ⟨_, rfl⟩
    | saveGraphics opts =>
      simp only [jstep, Except.ok.injEq] at h
      subst h
      exact saveGraphics_grows s opts
    | restoreGraphics =>
      simp only [jstep, Except.ok.injEq] at h
      subst h
      exact ⟨[], (List.append_nil _).symm⟩
    | drawImage src x y =>
      simp only [jstep, Except.ok.injEq] at h
      subst h
      exact ⟨_, rfl⟩
  · intro op s s' ha h
    cases op with
    | setContext elem => simp [appendsEntry] at ha
    | setDefaults => simp [appendsEntry] at ha
    | size width height => simp [appendsEntry] at ha
    | background color =>
      simp only [jstep, Except.ok.injEq] at h
      subst h
      simp only [JSketch.background, JSketch.beginFill, JSketch.endFill,
        JSketch.restoreGraphics, JSketch.saveGraphics, List.length_append,
        List.length_cons, List.length_nil]
      omega
    | stage width height bgcolor => simp [appendsEntry] at ha
    | beginFill color =>
      simp only [jstep, Except.ok.injEq] at h
      subst h
      simp only [JSketch.beginFill, JSketch.saveGraphics, List.length_append,
        List.length_cons, List.length_nil]
      omega
    | endFill => simp [appendsEntry] at ha
    | lineStyle color thickness capStyle joinStyle miter => simp [appendsEntry] at ha
    | moveTo x y =>
      simp only [jstep, Except.ok.injEq] at h
      subst h
      simp only [JSketch.moveTo, List.length_append, List.length_cons, List.length_nil]
      omega
    | lineTo x y =>
      simp only [jstep, Except.ok.injEq] at h
      subst h
      simp only [JSketch.lineTo, List.length_append, List.length_cons, List.length_nil]
      omega
    | line x1 y1 x2 y2 => simp [appendsEntry] at ha
    | curveTo x y cpx cpy =>
      simp only [jstep, Except.ok.injEq] at h
      subst h
      simp only [JSketch.curveTo, List.length_append, List.length_cons, List.length_nil]
      omega
    | curve x1 y1 x2 y2 cpx cpy => simp [appendsEntry] at ha
    | stroke =>
      simp only [jstep, Except.ok.injEq] at h
      subst h
      simp only [JSketch.stroke, List.length_append, List.length_cons, List.length_nil]
      omega
    | strokeRect x y width height =>
      simp only [jstep, Except.ok.injEq] at h
      subst h
      simp only [JSketch.strokeRect, List.length_append, List.length_cons,
        List.length_nil]
      omega
    | fillRect x y width height =>
      simp only [jstep, Except.ok.injEq] at h
      subst h
      simp only [JSketch.fillRect, List.length_append, List.length_cons,
        List.length_nil]
      omega
    | rect x y width height =>
      simp only [jstep, Except.ok.injEq] at h
      subst h
      simp only [JSketch.rect, JSketch.fillRect, JSketch.strokeRect,
        List.length_append, List.length_cons, List.length_nil]
      omega
    | strokeCircle x y radius =>
      simp only [jstep, Except.ok.injEq] at h
      subst h
      simp only [JSketch.strokeCircle, List.length_append, List.length_cons,
        List.length_nil]
      omega
    | fillCircle x y radius =>
      simp only [jstep, Except.ok.injEq] at h
      subst h
      simp only [JSketch.fillCircle, List.length_append, List.length_cons,
        List.length_nil]
      omega
    | circle x y radius =>
      simp only [jstep, Except.ok.injEq] at h
      subst h
      simp only [JSketch.circle, JSketch.fillCircle, JSketch.strokeCircle,
        List.length_append, List.length_cons, List.length_nil]
      omega
    | beginPath =>
      simp only [jstep, Except.ok.injEq] at h
      subst h
      simp only [JSketch.beginPath, JSketch.saveGraphics, List.length_append,
        List.length_cons, List.length_nil]
      omega
    | closePath =>
      simp only [jstep, Except.ok.injEq] at h
      subst h
      simp only [JSketch.closePath, JSketch.restoreGraphics, List.length_append,
        List.length_cons, List.length_nil]
      omega
    | eraser =>
      simp only [jstep, Except.ok.injEq] at h
      subst h
      simp only [JSketch.eraser, List.length_append, List.length_cons, List.length_nil]
      omega
    | pencil =>
      simp only [jstep, Except.ok.injEq] at h
      subst h
      simp only [JSketch.pencil, List.length_append, List.length_cons, List.length_nil]
      omega
    | clear =>
      simp only [jstep, Except.ok.injEq] at h
      subst h
      simp only [JSketch.clear, List.length_append, List.length_cons, List.length_nil]
      omega
    | save =>
      simp only [jstep, Except.ok.injEq] at h
      subst h
      simp only [JSketch.save, List.length_append, List.length_cons, List.length_nil]
      omega
    | restore =>
      simp only [jstep, Except.ok.injEq] at h
      subst h
      simp only [JSketch.restore, List.length_append, List.length_cons, List.length_nil]
      omega
    | saveGraphics opts => simp [appendsEntry] at ha
    | restoreGraphics => simp [appendsEntry] at ha
    | drawImage src x y => simp [appendsEntry] at ha

/-- Witness for C7: a stroke call on a concrete instance extends and strictly
grows the callStack. -/
theorem c7_witness :
    (∃ t, (JSketch.stroke demoSketch).callStack = demoSketch.callStack ++ t) ∧
    demoSketch.callStack.length < (JSketch.stroke demoSketch).callStack.length :=
  ⟨c7_callstack_append_only.1 Op.stroke demoSketch (JSketch.stroke demoSketch) rfl,
   c7_callstack_append_only.2.1 Op.stroke demoSketch (JSketch.stroke demoSketch) rfl rfl⟩
